import Mathlib

/-!
Verification development for `bot_finanzas.py`, a Telegram personal-finance
bot backed by a Google-Sheets row store.  The core domain logic (argument
parsing, monthly aggregation, budget/goal upsert, installment scheduling,
update routing) is embedded shallowly below: Python floats are modelled as
exact rationals, sheet cells as strings, fallible Python operations
(`int(...)`, `float(...)`, dict subscription) as `Option`/`Except`.
-/

namespace BotFinanzas

/-! ## Python string primitives

Core `String.trim`/`String.replace`/`String.split` are avoided in favour of
explicit `List Char` recursions, so that every definition evaluates by
`decide`/`simp` on concrete inputs. -/

/-- Python `str.strip()`: drop leading and trailing whitespace. -/
def pyStrip (s : String) : String :=
  ⟨((s.data.dropWhile Char.isWhitespace).reverse.dropWhile Char.isWhitespace).reverse⟩

/-- Python `str.replace(old, new)` for one-character patterns (the bot
only ever replaces `","` by `"."`). -/
def pyReplaceChar (old new : Char) (s : String) : String :=
  ⟨s.data.map fun c => if c = old then new else c⟩

/-- Python `str.lower()`. -/
def pyLower (s : String) : String :=
  ⟨s.data.map Char.toLower⟩

/-- Python `str.upper()`. -/
def pyUpper (s : String) : String :=
  ⟨s.data.map Char.toUpper⟩

/-- Helper for `pySplitWs`: the accumulator holds the current word,
reversed. -/
def splitWsAux : List Char → List Char → List String
  | [], acc => if acc = [] then [] else [⟨acc.reverse⟩]
  | c :: rest, acc =>
    if c.isWhitespace then
      if acc = [] then splitWsAux rest []
      else ⟨acc.reverse⟩ :: splitWsAux rest []
    else splitWsAux rest (c :: acc)

/-- Python `str.split()` with no argument: split on runs of whitespace,
discarding empty pieces. -/
def pySplitWs (s : String) : List String :=
  splitWsAux s.data []

/-- Python `s.split(sep, 1)[0]` for a one-character separator: the prefix
of `s` before the first occurrence of `sep`. -/
def pyBeforeChar (sep : Char) (s : String) : String :=
  ⟨s.data.takeWhile fun c => c ≠ sep⟩

/-! ## Python-style numeric parsing and rounding -/

/-- Value of a list of decimal digit characters, most significant first. -/
def digitsVal (l : List Char) : Nat :=
  l.foldl (fun a c => a * 10 + (c.toNat - 48)) 0

/-- Model of Python `int(s)` on a string: optional surrounding whitespace,
optional sign, then one or more decimal digits.  Returns `none` where
Python raises `ValueError`.  (Underscored literals and non-decimal bases
are not modelled; the bot never feeds them.) -/
def pyInt (s : String) : Option Int :=
  let cs := (pyStrip s).data
  let sgn : Int := match cs with
    | '-' :: _ => -1
    | _ => 1
  let ds := match cs with
    | '-' :: t => t
    | '+' :: t => t
    | _ => cs
  if ds ≠ [] ∧ ds.all Char.isDigit then some (sgn * digitsVal ds) else none

/-- Exponent suffix of a Python float literal: either nothing, or
`e`/`E`, an optional sign and one or more digits, consuming the whole
remainder.  Returns `none` where the remainder is not a valid suffix. -/
def pyFloatExp (cs : List Char) : Option Int :=
  match cs with
  | [] => some 0
  | c :: t =>
    if c = 'e' ∨ c = 'E' then
      let sgn : Int := match t with
        | '-' :: _ => -1
        | _ => 1
      let t2 := match t with
        | '-' :: u => u
        | '+' :: u => u
        | _ => t
      if t2 ≠ [] ∧ t2.all Char.isDigit then some (sgn * digitsVal t2) else none
    else none

/-- Syntactic phase of Python `float(s)`: strip whitespace, read an
optional sign, integer digits, optional fractional digits after a decimal
point (at least one digit overall) and an optional exponent suffix.
Returns the sign, the two digit groups and the exponent, or `none` where
Python raises `ValueError`. -/
def pyFloatParse (s : String) : Option (Int × List Char × List Char × Int) :=
  let cs := (pyStrip s).data
  let sgn : Int := match cs with
    | '-' :: _ => -1
    | _ => 1
  let cs1 := match cs with
    | '-' :: t => t
    | '+' :: t => t
    | _ => cs
  let ip := cs1.takeWhile Char.isDigit
  let cs2 := cs1.dropWhile Char.isDigit
  let fp := match cs2 with
    | '.' :: t => t.takeWhile Char.isDigit
    | _ => []
  let cs3 := match cs2 with
    | '.' :: t => t.dropWhile Char.isDigit
    | _ => cs2
  if ip = [] ∧ fp = [] then none
  else
    match pyFloatExp cs3 with
    | none => none
    | some e => some (sgn, ip, fp, e)

/-- Numeric phase of Python `float(s)`: the exact rational value of a
parsed literal `sgn ip . fp e`. -/
def pyFloatVal (sgn : Int) (ip fp : List Char) (e : Int) : ℚ :=
  let mant : ℚ := (digitsVal ip : ℚ) + (digitsVal fp : ℚ) / 10 ^ fp.length
  let scaled : ℚ :=
    if 0 ≤ e then mant * 10 ^ e.toNat else mant / 10 ^ (-e).toNat
  (sgn : ℚ) * scaled

/-- Model of Python `float(s)` on finite decimal literals.  The value is
kept as an exact rational; `inf`/`nan` and underscored literals are not
modelled.  Returns `none` where Python raises `ValueError`. -/
def pyFloat (s : String) : Option ℚ :=
  match pyFloatParse s with
  | none => none
  | some (sgn, ip, fp, e) => some (pyFloatVal sgn ip fp e)

/-- Round a rational to the nearest integer, ties to the even integer:
the rounding Python's `round` applies to the (exact) value of a float. -/
def roundHalfEven (x : ℚ) : ℤ :=
  let f := ⌊x⌋
  let r := x - f
  if r < 1 / 2 then f
  else if 1 / 2 < r then f + 1
  else if f % 2 = 0 then f else f + 1

/-- Model of Python `round(x, 2)` on the exact value of `x`: nearest
multiple of 1/100, ties to even. -/
def pyRound2 (x : ℚ) : ℚ :=
  (roundHalfEven (x * 100) : ℚ) / 100

/-- Modelled from the spec: "standard half-up rounding to two decimal
places" — nearest multiple of 1/100, ties rounded up.  Present only to
compare the spec's stated rounding rule with the code's `round`. -/
def roundHalfUp2 (x : ℚ) : ℚ :=
  (⌊x * 100 + 1 / 2⌋ : ℚ) / 100

/-- Modelled from the spec: the per-installment amount the spec
prescribes, `round(total_amount / count, 2)` with half-up rounding. -/
def specCuotaHalfUp (total : ℚ) (count : ℤ) : ℚ :=
  roundHalfUp2 (total / (count : ℚ))

/-! ## Dates: `month_add` and `calendar.monthrange` -/

/-- A Python `datetime.date` / `datetime.datetime` calendar day. -/
structure PyDate where
  year : ℤ
  month : ℤ
  day : ℤ
  deriving DecidableEq, Repr

/-- Gregorian leap-year test, as `calendar.isleap` / `monthrange` use it. -/
def isLeap (y : ℤ) : Bool :=
  y.fmod 4 = 0 ∧ (y.fmod 100 ≠ 0 ∨ y.fmod 400 = 0)

/-- `calendar.monthrange(y, m)[1]`: the number of days of month `m` of
year `y`. -/
def daysInMonth (y m : ℤ) : ℤ :=
  if m = 2 then (if isLeap y then 29 else 28)
  else if m = 4 ∨ m = 6 ∨ m = 9 ∨ m = 11 then 30
  else 31

/-- `month_add(base_date, offset_months)`: advance a date by whole
months, clamping the day to the target month's length.  Python's `//`
and `%` are floor division and floor modulus, hence `Int.fdiv`/`Int.fmod`. -/
def month_add (base_date : PyDate) (offset_months : ℤ) : PyDate :=
  let m := base_date.month - 1 + offset_months
  let year := base_date.year + Int.fdiv m 12
  let month := Int.fmod m 12 + 1
  let day := min base_date.day (daysInMonth year month)
  ⟨year, month, day⟩

/-! ## Monthly aggregation: `sumar_movimientos_del_mes`

A sheet row as `get_all_records` hands it to the aggregator: each cell is
kept as a string, the empty string standing for an empty or missing cell
(which is falsy in Python, so `row.get(k) or d` yields the default). -/

/-- The cells of a `Movimientos` row that the aggregator reads. -/
structure MovRow where
  tipo : String
  monto : String
  anio : String
  mes : String
  moneda : String
  deriving DecidableEq, Repr

/-- `int(row.get("Año") or 0)` (same for `"Mes"`): an empty cell becomes
`0`; a non-empty cell is parsed, `none` meaning `ValueError`. -/
def intCell (s : String) : Option ℤ :=
  if s = "" then some 0 else pyInt s

/-- `float(row.get("Monto") or 0)`: an empty cell becomes `0.0`; a
non-empty cell is parsed, `none` meaning `ValueError`. -/
def montoCell (s : String) : Option ℚ :=
  if s = "" then some 0 else pyFloat s

/-- `(row.get("Moneda") or "ARS").upper()`. -/
def monedaCell (s : String) : String :=
  pyUpper (if s = "" then "ARS" else s)

/-- `(row.get("Tipo") or "").lower()`. -/
def tipoCell (s : String) : String :=
  pyLower s

/-- The loop of `sumar_movimientos_del_mes`, with the two running totals
explicit.  A `ValueError` from `int` on the year/month cells is caught
(`continue`); a `ValueError` from `float` on the amount cell of a row
that passed the filter is *not* caught and aborts the whole scan, hence
the `Option` result. -/
def sumarAux (year month : ℤ) : List MovRow → ℚ → ℚ → Option (ℚ × ℚ)
  | [], ingresos, gastos => some (ingresos, gastos)
  | r :: rest, ingresos, gastos =>
    match intCell r.anio, intCell r.mes with
    | some anio, some mes =>
      if anio = year ∧ mes = month ∧ monedaCell r.moneda = "ARS" then
        match montoCell r.monto with
        | none => none
        | some monto =>
          if tipoCell r.tipo = "ingreso" then
            sumarAux year month rest (ingresos + monto) gastos
          else if tipoCell r.tipo = "gasto" then
            sumarAux year month rest ingresos (gastos + monto)
          else
            sumarAux year month rest ingresos gastos
      else sumarAux year month rest ingresos gastos
    | _, _ => sumarAux year month rest ingresos gastos

/-- `sumar_movimientos_del_mes(year, month)` over a given list of rows:
`(total_ingresos, total_gastos)` restricted to ARS rows of that month. -/
def sumar_movimientos_del_mes (year month : ℤ) (registros : List MovRow) :
    Option (ℚ × ℚ) :=
  sumarAux year month registros 0 0

/-- Whether a row passes the aggregator's filter: both the year and the
month cell parse, they equal the queried year and month, and the
(defaulted) currency is ARS. -/
def includedRow (year month : ℤ) (r : MovRow) : Bool :=
  match intCell r.anio, intCell r.mes with
  | some anio, some mes =>
    decide (anio = year ∧ mes = month ∧ monedaCell r.moneda = "ARS")
  | _, _ => false

/-- The contribution of a filtered-in row to the income total. -/
def ingresoVal (r : MovRow) : ℚ :=
  if tipoCell r.tipo = "ingreso" then (montoCell r.monto).getD 0 else 0

/-- The contribution of a filtered-in row to the expense total.  (The
`elif` guard `tipo == "gasto"` is only reached when `tipo != "ingreso"`,
which is implied by `tipo = "gasto"`.) -/
def gastoVal (r : MovRow) : ℚ :=
  if tipoCell r.tipo = "gasto" then (montoCell r.monto).getD 0 else 0

/-! ## Budget and goal upsert -/

/-- A `Presupuestos` sheet row: category key and monthly amount. -/
structure PresupRow where
  categoria : String
  monto : ℚ
  deriving DecidableEq, Repr

/-- A `Objetivos` sheet row: goal name and target amount. -/
structure ObjRow where
  nombre : String
  monto : ℚ
  deriving DecidableEq, Repr

/-- `set_presupuesto(categoria, monto)` on the rows below the header:
linear scan for the first case-insensitive key match; on a match only
that row's amount cell is overwritten (`update_cell(idx, 2, ...)`), on no
match a new row is appended at the end. -/
def set_presupuesto (categoria : String) (monto : ℚ) :
    List PresupRow → List PresupRow
  | [] => [⟨categoria, monto⟩]
  | r :: rest =>
    if pyLower r.categoria = pyLower categoria then ⟨r.categoria, monto⟩ :: rest
    else r :: set_presupuesto categoria monto rest

/-- `set_objetivo(nombre, monto)`: identical upsert keyed by name. -/
def set_objetivo (nombre : String) (monto : ℚ) : List ObjRow → List ObjRow
  | [] => [⟨nombre, monto⟩]
  | r :: rest =>
    if pyLower r.nombre = pyLower nombre then ⟨r.nombre, monto⟩ :: rest
    else r :: set_objetivo nombre monto rest

/-- Number of rows whose category matches `categoria` case-insensitively. -/
def countPresup (categoria : String) (l : List PresupRow) : ℕ :=
  (l.filter fun r => pyLower r.categoria = pyLower categoria).length

/-- Number of rows whose name matches `nombre` case-insensitively. -/
def countObj (nombre : String) (l : List ObjRow) : ℕ :=
  (l.filter fun r => pyLower r.nombre = pyLower nombre).length

/-! ## Movement argument parsing: `parse_movimiento_args` -/

/-- The two `ValueError` conditions `parse_movimiento_args` raises. -/
inductive ParseError where
  | missingArguments
  | invalidAmount
  deriving DecidableEq, Repr

/-- `parse_movimiento_args(args)`: require category and amount tokens,
normalize a comma decimal separator to a dot before parsing the amount,
rejoin the remaining tokens into the description. -/
def parse_movimiento_args (args : List String) :
    Except ParseError (String × ℚ × String) :=
  if args.length < 2 then .error .missingArguments
  else
    let categoria := args.headD ""
    match pyFloat (pyReplaceChar ',' '.' (args.getD 1 "")) with
    | none => .error .invalidAmount
    | some monto =>
      let descripcion :=
        if args.length > 2 then " ".intercalate (args.drop 2) else ""
      .ok (categoria, monto, descripcion)

/-! ## Installment scheduling: `cmd_cuotas` -/

/-- A movement as `add_movimiento` appends it for an installment: the
arguments `cmd_cuotas` passes, with the row normalizations
(`tipo.lower()`, `moneda.upper()`) already the identity on them. -/
structure Movement where
  tipo : String
  categoria : String
  monto : ℚ
  descripcion : String
  fecha : PyDate
  moneda : String
  deriving DecidableEq, Repr

/-- The observable outcome of `cmd_cuotas`: one constructor per early
`return` with an error reply, and the success case carrying the recorded
movements together with the total and per-installment amounts echoed in
the confirmation reply. -/
inductive CuotasResult where
  | faltanDatos
  | montoInvalido
  | cuotasNoEntero
  | cuotasNoPositivas
  | ok (movs : List Movement) (montoTotal montoCuota : ℚ)
  deriving DecidableEq, Repr

/-- The movements a `cmd_cuotas` outcome records: none on any error path. -/
def movementsOf : CuotasResult → List Movement
  | .ok movs _ _ => movs
  | _ => []

/-- The description of installment `i` (0-based) out of `cantidad`:
`f"{descripcion} (cuota {i+1}/{cantidad_cuotas})".strip()`. -/
def cuotaDesc (descripcion : String) (i : ℕ) (cantidad : ℤ) : String :=
  pyStrip (descripcion ++ " (cuota " ++ toString (i + 1) ++ "/" ++ toString cantidad ++ ")")

/-- `cmd_cuotas(args)` on day `hoy` (`datetime.date.today()`), stripped
of the transport: needs at least three tokens; total amount from
`args[1]` with comma→dot; installment count from the *last* token via
`int`, rejected unless positive; description from `args[2:-1]`; then one
`gasto` ARS movement per installment, all with the amount
`round(monto_total / cantidad_cuotas, 2)` and dates `month_add(hoy, i)`. -/
def cmd_cuotas (args : List String) (hoy : PyDate) : CuotasResult :=
  if args.length < 3 then .faltanDatos
  else
    let categoria := args.headD ""
    match pyFloat (pyReplaceChar ',' '.' (args.getD 1 "")) with
    | none => .montoInvalido
    | some monto_total =>
      match pyInt (args.getLastD "") with
      | none => .cuotasNoEntero
      | some cantidad_cuotas =>
        if cantidad_cuotas ≤ 0 then .cuotasNoPositivas
        else
          let descripcion :=
            if args.length > 3 then " ".intercalate (args.drop 2).dropLast else ""
          let monto_cuota := pyRound2 (monto_total / (cantidad_cuotas : ℚ))
          let movs := (List.range cantidad_cuotas.toNat).map fun i =>
            { tipo := "gasto"
              categoria := categoria
              monto := monto_cuota
              descripcion := cuotaDesc descripcion i cantidad_cuotas
              fecha := month_add hoy (i : ℤ)
              moneda := "ARS" : Movement }
          .ok movs monto_total monto_cuota

/-! ## The update router: `handle_update`

The transport objects are modelled structurally: every key the router
reads is an `Option` field, `none` standing for an absent key.  Handler
bodies perform I/O; they are abstracted as a function `hexec` from the
matched command, the sender's first name and the argument tokens to
either the list of reply texts the handler sends or the exception it
raises.  The router's value is the list of `(chat_id, text)` messages
sent, or the exception `handle_update` itself lets escape. -/

/-- The `"chat"` object of a Telegram message: `message["chat"]["id"]`. -/
structure ChatObj where
  id : Option Int
  deriving DecidableEq, Repr

/-- The `"from"` object of a Telegram message. -/
structure UserObj where
  first_name : Option String
  deriving DecidableEq, Repr

/-- The `"message"` object of a Telegram update. -/
structure MessageObj where
  text : Option String
  chat : Option ChatObj
  fromUser : Option UserObj
  deriving DecidableEq, Repr

/-- A Telegram update envelope. -/
structure Update where
  message : Option MessageObj
  deriving DecidableEq, Repr

/-- A Python exception as the router sees it: a `KeyError` from
subscripting a missing key, or whatever a handler raised. -/
inductive PyExn where
  | keyError
  | handlerError
  deriving DecidableEq, Repr

/-- The eleven command keywords the `if`/`elif` chain dispatches on. -/
def knownCommands : List String :=
  ["/start", "/help", "/gasto", "/gasto_usd", "/ingreso", "/ingreso_usd",
   "/cuotas", "/resumen", "/saldo", "/presupuesto", "/objetivo"]

/-- The fixed reply for an unmatched command. -/
def unrecognizedReply : String :=
  "❓ Comando no reconocido. Usa /help para ver las opciones."

/-- The fixed reply the `except` arm of the router sends. -/
def routerErrorReply : String :=
  "⚠️ Ocurrió un error procesando el comando. Probá de nuevo."

/-- The command token of a (stripped, non-empty) message text:
`parts[0]`, with a `@BotName` suffix removed when present. -/
def commandOf (text : String) : String :=
  let command := (pySplitWs text).headD ""
  if command.data.contains '@' then pyBeforeChar '@' command else command

/-- The argument tokens of a message text: `parts[1:]`. -/
def argsOf (text : String) : List String :=
  (pySplitWs text).tail

/-- `handle_update(update)`: no-op on empty text, `KeyError` on a missing
chat id (extracted *before* the `try`), then dispatch guarded by
`try`/`except`, which maps any handler exception to the fixed error
reply.  `hexec cmd first_name args` abstracts the body of the matched
handler. -/
def handle_update (hexec : String → String → List String → Except PyExn (List String))
    (update : Update) : Except PyExn (List (Int × String)) :=
  let message := update.message.getD ⟨none, none, none⟩
  let text := pyStrip (message.text.getD "")
  if text = "" then .ok []
  else
    match message.chat with
    | none => .error .keyError
    | some chat =>
      match chat.id with
      | none => .error .keyError
      | some chat_id =>
        let first_name := (message.fromUser.getD ⟨none⟩).first_name.getD "Mica"
        let command := commandOf text
        let args := argsOf text
        let attempted : Except PyExn (List String) :=
          if command ∈ knownCommands then hexec command first_name args
          else .ok [unrecognizedReply]
        match attempted with
        | .ok texts => .ok (texts.map fun t => (chat_id, t))
        | .error _ => .ok [(chat_id, routerErrorReply)]

/-! ## Lemmas about the monthly aggregation -/

theorem sumarAux_eq (y m : ℤ) (rows : List MovRow) (a b : ℚ) :
    sumarAux y m rows a b =
      if (rows.filter (includedRow y m)).all (fun r => (montoCell r.monto).isSome)
      then some (a + ((rows.filter (includedRow y m)).map ingresoVal).sum,
                 b + ((rows.filter (includedRow y m)).map gastoVal).sum)
      else none := by
  induction rows generalizing a b with
  | nil => simp [sumarAux]
  | cons r rest ih =>
    cases h1 : intCell r.anio with
    | none =>
      have hinc : includedRow y m r = false := by rw [includedRow, h1]
      simp only [sumarAux, h1]
      simp [List.filter_cons, hinc, ih]
    | some anio =>
      cases h2 : intCell r.mes with
      | none =>
        have hinc : includedRow y m r = false := by rw [includedRow, h1, h2]
        simp only [sumarAux, h1, h2]
        simp [List.filter_cons, hinc, ih]
      | some mes =>
        simp only [sumarAux, h1, h2]
        by_cases hc : anio = y ∧ mes = m ∧ monedaCell r.moneda = "ARS"
        · have hinc : includedRow y m r = true := by
            rw [includedRow, h1, h2]; exact decide_eq_true hc
          rw [if_pos hc]
          cases h3 : montoCell r.monto with
          | none =>
            simp [List.filter_cons, hinc, h3]
          | some v =>
            dsimp only
            by_cases ht : tipoCell r.tipo = "ingreso"
            · rw [if_pos ht, ih]
              simp [List.filter_cons, hinc, ingresoVal, gastoVal, ht, h3, add_assoc]
            · rw [if_neg ht]
              by_cases hg : tipoCell r.tipo = "gasto"
              · rw [if_pos hg, ih]
                simp [List.filter_cons, hinc, ingresoVal, gastoVal, ht, hg, h3, add_assoc]
              · rw [if_neg hg, ih]
                simp [List.filter_cons, hinc, ingresoVal, gastoVal, ht, hg, h3]
        · have hinc : includedRow y m r = false := by
            rw [includedRow, h1, h2]; exact decide_eq_false hc
          rw [if_neg hc]
          simp [List.filter_cons, hinc, ih]

theorem sumar_eq (y m : ℤ) (rows : List MovRow) :
    sumar_movimientos_del_mes y m rows =
      if (rows.filter (includedRow y m)).all (fun r => (montoCell r.monto).isSome)
      then some (((rows.filter (includedRow y m)).map ingresoVal).sum,
                 ((rows.filter (includedRow y m)).map gastoVal).sum)
      else none := by
  rw [sumar_movimientos_del_mes, sumarAux_eq]
  simp

theorem includedRow_iff (y m : ℤ) (r : MovRow) :
    includedRow y m r = true ↔
      intCell r.anio = some y ∧ intCell r.mes = some m ∧
        monedaCell r.moneda = "ARS" := by
  rw [includedRow]
  cases h1 : intCell r.anio with
  | none => simp [h1]
  | some anio =>
    cases h2 : intCell r.mes with
    | none => simp [h2]
    | some mes => simp only [decide_eq_true_iff]; aesop

theorem perm_all_eq {α : Type} (p : α → Bool) {l1 l2 : List α}
    (h : l1.Perm l2) : l1.all p = l2.all p := by
  induction h with
  | nil => rfl
  | cons x _ ih => simp [List.all_cons, ih]
  | swap x y l => simp [List.all_cons, ← Bool.and_assoc, Bool.and_comm]
  | trans _ _ ih1 ih2 => exact ih1.trans ih2

/-- C3: the monthly aggregation keeps exactly the rows whose year and
month cells parse and equal the queried year and month in currency ARS;
it sums their amounts into the income and expense totals by kind, and it
returns `(0, 0)` on an empty movement set, on an all-filtered-out set,
and in particular when every row carries a non-ARS currency. -/
theorem sumar_filters_to_year_month_ars (y m : ℤ) (rows : List MovRow) :
    sumar_movimientos_del_mes y m ([] : List MovRow) = some (0, 0)
    ∧ ((∀ r ∈ rows, includedRow y m r = false) →
        sumar_movimientos_del_mes y m rows = some (0, 0))
    ∧ ((∀ r ∈ rows, monedaCell r.moneda ≠ "ARS") →
        sumar_movimientos_del_mes y m rows = some (0, 0))
    ∧ (((rows.filter (includedRow y m)).all fun r => (montoCell r.monto).isSome) →
        sumar_movimientos_del_mes y m rows =
          some (((rows.filter (includedRow y m)).map ingresoVal).sum,
                ((rows.filter (includedRow y m)).map gastoVal).sum))
    ∧ (∀ r : MovRow, includedRow y m r = true ↔
        intCell r.anio = some y ∧ intCell r.mes = some m ∧
          monedaCell r.moneda = "ARS") := by
  refine ⟨by simp [sumar_movimientos_del_mes, sumarAux], ?_, ?_, ?_, includedRow_iff y m⟩
  · intro hall
    have hf : rows.filter (includedRow y m) = [] :=
      List.filter_eq_nil_iff.mpr (by simpa using hall)
    rw [sumar_eq, hf]
    simp
  · intro hars
    have hall : ∀ r ∈ rows, includedRow y m r = false := by
      intro r hr
      cases hb : includedRow y m r with
      | false => rfl
      | true => exact absurd ((includedRow_iff y m r).mp hb).2.2 (hars r hr)
    have hf : rows.filter (includedRow y m) = [] :=
      List.filter_eq_nil_iff.mpr (by simpa using hall)
    rw [sumar_eq, hf]
    simp
  · intro hparse
    rw [sumar_eq, if_pos hparse]

/-- C7: the aggregation's totals do not depend on the order of the rows,
and a row whose year or month cell fails integer parsing is skipped
silently, leaving the totals of the remaining rows. -/
theorem sumar_perm_invariant_skips_malformed (y m : ℤ) :
    (∀ rows1 rows2 : List MovRow, rows1.Perm rows2 →
      sumar_movimientos_del_mes y m rows1 = sumar_movimientos_del_mes y m rows2)
    ∧ (∀ (r : MovRow) (rows : List MovRow),
        intCell r.anio = none ∨ intCell r.mes = none →
        sumar_movimientos_del_mes y m (r :: rows) =
          sumar_movimientos_del_mes y m rows) := by
  constructor
  · intro rows1 rows2 h
    rw [sumar_eq, sumar_eq]
    have hf := h.filter (includedRow y m)
    rw [perm_all_eq _ hf, (hf.map ingresoVal).sum_eq, (hf.map gastoVal).sum_eq]
  · intro r rows hbad
    rcases hbad with h | h
    · simp only [sumar_movimientos_del_mes, sumarAux, h]
    · cases h1 : intCell r.anio with
      | none => simp only [sumar_movimientos_del_mes, sumarAux, h1]
      | some anio => simp only [sumar_movimientos_del_mes, sumarAux, h1, h]

/-- C9: a row whose currency cell is empty (or missing, which
`get_all_records` also surfaces as an empty value) defaults to ARS and is
aggregated when its year and month match; only a row whose (defaulted,
upper-cased) currency differs from ARS is excluded.  A matching empty-currency
`gasto` row adds its amount to the expense total. -/
theorem empty_moneda_defaults_to_ars (y m : ℤ) (r : MovRow) (rows : List MovRow) :
    (r.moneda = "" → intCell r.anio = some y → intCell r.mes = some m →
      includedRow y m r = true)
    ∧ (monedaCell r.moneda ≠ "ARS" → includedRow y m r = false)
    ∧ (∀ v : ℚ, r.moneda = "" → intCell r.anio = some y → intCell r.mes = some m →
        tipoCell r.tipo = "gasto" → montoCell r.monto = some v →
        sumar_movimientos_del_mes y m (r :: rows) =
          (sumar_movimientos_del_mes y m rows).map fun p => (p.1, p.2 + v)) := by
  refine ⟨?_, ?_, ?_⟩
  · intro hm h1 h2
    refine (includedRow_iff y m r).mpr ⟨h1, h2, ?_⟩
    rw [hm]
    decide
  · intro hm
    cases hb : includedRow y m r with
    | false => rfl
    | true => exact absurd ((includedRow_iff y m r).mp hb).2.2 hm
  · intro v hm h1 h2 ht hv
    have hinc : includedRow y m r = true :=
      (includedRow_iff y m r).mpr ⟨h1, h2, by rw [hm]; decide⟩
    have hti : ¬ tipoCell r.tipo = "ingreso" := by
      rw [ht]; decide
    rw [sumar_eq, sumar_eq]
    simp only [List.filter_cons, hinc, if_true, List.all_cons, List.map_cons,
      List.sum_cons, hv, Option.isSome_some, Bool.true_and,
      ingresoVal, gastoVal, ht, hti, if_false, if_true, Option.getD_some]
    split
    · simp [add_comm]
    · rfl

/-! ## Lemmas about the installment command -/

theorem pyFloat_0125 : pyFloat "0.125" = some (1/8) := by
  have hp : pyFloatParse "0.125" = some (1, ['0'], ['1','2','5'], 0) := by decide
  have d1 : digitsVal ['0'] = 0 := by decide
  have d2 : digitsVal ['1','2','5'] = 125 := by decide
  rw [pyFloat, hp]
  norm_num [pyFloatVal, d1, d2]

theorem pyFloat_10000 : pyFloat "100.00" = some 100 := by
  have hp : pyFloatParse "100.00" = some (1, ['1','0','0'], ['0','0'], 0) := by decide
  have d1 : digitsVal ['1','0','0'] = 100 := by decide
  have d2 : digitsVal ['0','0'] = 0 := by decide
  rw [pyFloat, hp]
  norm_num [pyFloatVal, d1, d2]

theorem pyFloat_30000 : pyFloat "30000" = some 30000 := by
  have hp : pyFloatParse "30000" = some (1, ['3','0','0','0','0'], [], 0) := by decide
  have d1 : digitsVal ['3','0','0','0','0'] = 30000 := by decide
  have d2 : digitsVal ([] : List Char) = 0 := by decide
  rw [pyFloat, hp]
  norm_num [pyFloatVal, d1, d2]

theorem pyFloat_5_5 : pyFloat "5.5" = some (11/2) := by
  have hp : pyFloatParse "5.5" = some (1, ['5'], ['5'], 0) := by decide
  have d1 : digitsVal ['5'] = 5 := by decide
  rw [pyFloat, hp]
  norm_num [pyFloatVal, d1]

theorem cmd_cuotas_ok (args : List String) (hoy : PyDate)
    (h3 : ¬ args.length < 3) (q : ℚ)
    (hq : pyFloat (pyReplaceChar ',' '.' (args.getD 1 "")) = some q)
    (n : ℤ) (hn : pyInt (args.getLastD "") = some n) (hpos : ¬ n ≤ 0) :
    cmd_cuotas args hoy = .ok
      ((List.range n.toNat).map fun i =>
        { tipo := "gasto", categoria := args.headD "",
          monto := pyRound2 (q / (n : ℚ)),
          descripcion := cuotaDesc
            (if args.length > 3 then " ".intercalate (args.drop 2).dropLast else "") i n,
          fecha := month_add hoy (i : ℤ), moneda := "ARS" })
      q (pyRound2 (q / (n : ℚ))) := by
  simp only [cmd_cuotas, h3, if_false, hq, hn, hpos]

theorem cmd_cuotas_ok_inv (args : List String) (hoy : PyDate)
    (movs : List Movement) (mt mc : ℚ)
    (h : cmd_cuotas args hoy = .ok movs mt mc) :
    ∃ n : ℤ, pyInt (args.getLastD "") = some n ∧ 0 < n ∧
      pyFloat (pyReplaceChar ',' '.' (args.getD 1 "")) = some mt ∧
      mc = pyRound2 (mt / (n : ℚ)) ∧
      movs = (List.range n.toNat).map (fun i =>
        { tipo := "gasto", categoria := args.headD "", monto := mc,
          descripcion := cuotaDesc
            (if args.length > 3 then " ".intercalate (args.drop 2).dropLast else "") i n,
          fecha := month_add hoy (i : ℤ), moneda := "ARS" }) := by
  by_cases h3 : args.length < 3
  · rw [cmd_cuotas, if_pos h3] at h
    exact absurd h (by simp)
  · rw [cmd_cuotas, if_neg h3] at h
    cases hq : pyFloat (pyReplaceChar ',' '.' (args.getD 1 "")) with
    | none => rw [hq] at h; exact absurd h (by simp)
    | some q =>
      rw [hq] at h
      cases hn : pyInt (args.getLastD "") with
      | none => rw [hn] at h; exact absurd h (by simp)
      | some n =>
        rw [hn] at h
        dsimp only at h
        by_cases hpos : n ≤ 0
        · rw [if_pos hpos] at h
          exact absurd h (by simp)
        · rw [if_neg hpos] at h
          simp only [CuotasResult.ok.injEq] at h
          obtain ⟨hm, hq2, hc2⟩ := h
          subst hq2
          subst hc2
          exact ⟨n, rfl, by omega, rfl, rfl, hm.symm⟩

/-- C1 (counterexample): the spec prescribes *half-up* rounding of the
per-installment amount, but Python's `round` rounds half to even.
Scheduling a total of `0.125` over one installment records the amount
`0.12` (= 3/25), while half-up rounding of `0.125 / 1` gives `0.13`. -/
theorem cuotas_halfup_counterexample :
    (movementsOf (cmd_cuotas ["x", "0.125", "d", "1"] ⟨2024, 1, 15⟩)).map Movement.monto
        = [3/25]
    ∧ specCuotaHalfUp (1/8) 1 = 13/100
    ∧ (3/25 : ℚ) ≠ 13/100 := by
  have hok := cmd_cuotas_ok ["x", "0.125", "d", "1"] ⟨2024, 1, 15⟩ (by decide)
    (1/8) pyFloat_0125 1 (by decide) (by decide)
  refine ⟨?_, ?_, by norm_num⟩
  · rw [hok]
    simp only [movementsOf]
    have hr : List.range (1:ℤ).toNat = [0] := by decide
    rw [hr]
    simp only [List.map_cons, List.map_nil, List.cons.injEq, and_true]
    norm_num [pyRound2, roundHalfEven]
  · norm_num [specCuotaHalfUp, roundHalfUp2]

/-- C1 (amended): for every total amount and positive installment count
accepted by the command, the per-installment amount is computed once as
`round(total / count, 2)` — Python's `round`, i.e. half-to-even
("banker's") rounding, not half-up — and every one of the `count`
recorded movements carries exactly that amount, with no redistribution of
the rounding remainder; scheduling `100.00` over 3 installments records
three movements of `33.33` each. -/
theorem cuotas_equal_amounts_half_even (args : List String) (hoy : PyDate)
    (movs : List Movement) (mt mc : ℚ)
    (h : cmd_cuotas args hoy = .ok movs mt mc) :
    (∃ n : ℤ, pyInt (args.getLastD "") = some n ∧ 0 < n ∧
      movs.length = n.toNat ∧ mc = pyRound2 (mt / (n : ℚ)))
    ∧ (∀ mv ∈ movs, mv.monto = mc)
    ∧ (movementsOf (cmd_cuotas ["c", "100.00", "tv", "3"] hoy)).map Movement.monto
        = [3333/100, 3333/100, 3333/100] := by
  obtain ⟨n, hn, hpos, hq, hmc, hm⟩ := cmd_cuotas_ok_inv args hoy movs mt mc h
  refine ⟨⟨n, hn, hpos, by rw [hm]; simp, hmc⟩, ?_, ?_⟩
  · intro mv hmv
    rw [hm] at hmv
    simp only [List.mem_map, List.mem_range] at hmv
    obtain ⟨i, _, rfl⟩ := hmv
    rfl
  · have hok := cmd_cuotas_ok ["c", "100.00", "tv", "3"] hoy (by decide)
      100 pyFloat_10000 3 (by decide) (by decide)
    rw [hok]
    simp only [movementsOf]
    have hr : List.range (3:ℤ).toNat = [0, 1, 2] := by decide
    rw [hr]
    simp only [List.map_cons, List.map_nil, List.cons.injEq, and_true]
    norm_num [pyRound2, roundHalfEven]

/-- Witness for C1 (amended) at the concrete schedule of `100.00` over 3
installments. -/
theorem cuotas_equal_amounts_half_even_witness :
    (movementsOf (cmd_cuotas ["c", "100.00", "tv", "3"] ⟨2024, 1, 15⟩)).map Movement.monto
        = [3333/100, 3333/100, 3333/100] := by
  have hok := cmd_cuotas_ok ["c", "100.00", "tv", "3"] ⟨2024, 1, 15⟩ (by decide)
    100 pyFloat_10000 3 (by decide) (by decide)
  exact (cuotas_equal_amounts_half_even _ _ _ _ _ hok).2.2

/-- C2: advancing the start date by `i` calendar months moves the
year/month pair by exactly `i` months, lands on a valid month number, and
preserves the day-of-month except when the target month is shorter, in
which case the day clamps to the target month's length; every installment
`j` of a successful `/cuotas` command is dated `month_add(today, j)`; and
`2024-01-31` advanced by 0 and 1 months gives `2024-01-31`, `2024-02-29`. -/
theorem month_add_advances_and_clamps (d : PyDate) (i : ℕ) :
    (12 * (month_add d (i : ℤ)).year + ((month_add d (i : ℤ)).month - 1)
        = 12 * d.year + (d.month - 1) + (i : ℤ))
    ∧ (1 ≤ (month_add d (i : ℤ)).month ∧ (month_add d (i : ℤ)).month ≤ 12)
    ∧ (d.day ≤ daysInMonth (month_add d (i : ℤ)).year (month_add d (i : ℤ)).month →
        (month_add d (i : ℤ)).day = d.day)
    ∧ (daysInMonth (month_add d (i : ℤ)).year (month_add d (i : ℤ)).month ≤ d.day →
        (month_add d (i : ℤ)).day
          = daysInMonth (month_add d (i : ℤ)).year (month_add d (i : ℤ)).month)
    ∧ (∀ (args : List String) (hoy : PyDate) movs mt mc,
        cmd_cuotas args hoy = .ok movs mt mc →
        ∀ j (hj : j < movs.length), (movs.get ⟨j, hj⟩).fecha = month_add hoy (j : ℤ))
    ∧ month_add ⟨2024, 1, 31⟩ 0 = ⟨2024, 1, 31⟩
    ∧ month_add ⟨2024, 1, 31⟩ 1 = ⟨2024, 2, 29⟩ := by
  have hmod := Int.fmod_add_fdiv (d.month - 1 + (i : ℤ)) 12
  have hnn := Int.fmod_nonneg' (d.month - 1 + (i : ℤ)) (by norm_num : (0:ℤ) < 12)
  have hlt := Int.fmod_lt_of_pos (d.month - 1 + (i : ℤ)) (by norm_num : (0:ℤ) < 12)
  refine ⟨?_, ⟨?_, ?_⟩, ?_, ?_, ?_, by decide, by decide⟩
  · simp only [month_add]; omega
  · simp only [month_add]; omega
  · simp only [month_add]; omega
  · intro hle
    simp only [month_add] at hle ⊢
    omega
  · intro hle
    simp only [month_add] at hle ⊢
    omega
  · intro args hoy movs mt mc h j hj
    obtain ⟨n, hn, hpos, hq, hmc, hm⟩ := cmd_cuotas_ok_inv args hoy movs mt mc h
    subst hm
    simp only [List.get_eq_getElem, List.getElem_map, List.getElem_range]

/-- Witness for C2: the clamped branch at `2024-01-31 + 1 month`. -/
theorem month_add_advances_and_clamps_witness :
    (month_add ⟨2024, 1, 31⟩ ((1 : ℕ) : ℤ)).day
      = daysInMonth (month_add ⟨2024, 1, 31⟩ ((1 : ℕ) : ℤ)).year
          (month_add ⟨2024, 1, 31⟩ ((1 : ℕ) : ℤ)).month :=
  (month_add_advances_and_clamps ⟨2024, 1, 31⟩ 1).2.2.2.1 (by decide)

/-- C8: the installment count is taken from the last argument token; a
non-integer last token yields the non-integer installment-count error and
a last token parsing to an integer `≤ 0` yields the non-positive
installment-count error, and on both error paths no movement at all is
recorded. -/
theorem cuotas_invalid_count_no_movement (args : List String) (hoy : PyDate) (q : ℚ)
    (h3 : 3 ≤ args.length)
    (hq : pyFloat (pyReplaceChar ',' '.' (args.getD 1 "")) = some q) :
    (pyInt (args.getLastD "") = none →
      cmd_cuotas args hoy = .cuotasNoEntero ∧ movementsOf (cmd_cuotas args hoy) = [])
    ∧ (∀ n : ℤ, pyInt (args.getLastD "") = some n → n ≤ 0 →
      cmd_cuotas args hoy = .cuotasNoPositivas ∧ movementsOf (cmd_cuotas args hoy) = []) := by
  have h3' : ¬ args.length < 3 := by omega
  constructor
  · intro hn
    have he : cmd_cuotas args hoy = .cuotasNoEntero := by
      simp only [cmd_cuotas, h3', if_false, hq, hn]
    exact ⟨he, by rw [he]; rfl⟩
  · intro n hn hle
    have he : cmd_cuotas args hoy = .cuotasNoPositivas := by
      simp only [cmd_cuotas, h3', if_false, hq, hn]
      rw [if_pos hle]
    exact ⟨he, by rw [he]; rfl⟩

/-- Witness for C8 at a non-integer and at a zero installment count. -/
theorem cuotas_invalid_count_no_movement_witness :
    cmd_cuotas ["hogar", "30000", "pava", "x"] ⟨2024, 1, 15⟩ = .cuotasNoEntero
    ∧ cmd_cuotas ["hogar", "30000", "pava", "0"] ⟨2024, 1, 15⟩ = .cuotasNoPositivas := by
  have hq : pyFloat (pyReplaceChar ',' '.' "30000") = some 30000 := pyFloat_30000
  constructor
  · exact ((cuotas_invalid_count_no_movement ["hogar", "30000", "pava", "x"]
      ⟨2024, 1, 15⟩ 30000 (by decide) hq).1 (by decide)).1
  · exact ((cuotas_invalid_count_no_movement ["hogar", "30000", "pava", "0"]
      ⟨2024, 1, 15⟩ 30000 (by decide) hq).2 0 (by decide) (by decide)).1

/-- Witness for C3 at a movement set whose only row for the queried month
is in currency USD. -/
theorem sumar_filters_to_year_month_ars_witness :
    sumar_movimientos_del_mes 2024 5 [⟨"gasto", "5", "2024", "5", "USD"⟩]
      = some (0, 0) :=
  (sumar_filters_to_year_month_ars 2024 5
    [⟨"gasto", "5", "2024", "5", "USD"⟩]).2.2.1 (by decide)

/-- Witness for C7: a two-row swap and a skipped malformed-year row. -/
theorem sumar_perm_invariant_skips_malformed_witness :
    sumar_movimientos_del_mes 2024 5
        [⟨"gasto", "10", "2024", "5", ""⟩, ⟨"ingreso", "3", "2024", "5", "ars"⟩]
      = sumar_movimientos_del_mes 2024 5
        [⟨"ingreso", "3", "2024", "5", "ars"⟩, ⟨"gasto", "10", "2024", "5", ""⟩]
    ∧ sumar_movimientos_del_mes 2024 5
        [⟨"gasto", "5", "x", "5", ""⟩, ⟨"gasto", "10", "2024", "5", ""⟩]
      = sumar_movimientos_del_mes 2024 5 [⟨"gasto", "10", "2024", "5", ""⟩] :=
  ⟨(sumar_perm_invariant_skips_malformed 2024 5).1 _ _
      (List.Perm.swap (⟨"ingreso", "3", "2024", "5", "ars"⟩ : MovRow)
        (⟨"gasto", "10", "2024", "5", ""⟩ : MovRow) []),
   (sumar_perm_invariant_skips_malformed 2024 5).2
      ⟨"gasto", "5", "x", "5", ""⟩ [⟨"gasto", "10", "2024", "5", ""⟩]
      (Or.inl (by decide))⟩

/-- Witness for C9 at an empty-currency row of the queried month. -/
theorem empty_moneda_defaults_to_ars_witness :
    includedRow 2024 5 ⟨"gasto", "5", "2024", "5", ""⟩ = true :=
  (empty_moneda_defaults_to_ars 2024 5 ⟨"gasto", "5", "2024", "5", ""⟩ []).1
    rfl (by decide) (by decide)

/-! ## Lemmas about the budget/goal upsert -/

theorem set_presupuesto_idem (c : String) (m : ℚ) (l : List PresupRow) :
    set_presupuesto c m (set_presupuesto c m l) = set_presupuesto c m l := by
  induction l with
  | nil =>
    simp [set_presupuesto]
  | cons r rest ih =>
    by_cases hm : pyLower r.categoria = pyLower c
    · simp [set_presupuesto, hm]
    · simp [set_presupuesto, hm, ih]

theorem set_presupuesto_append (c : String) (m : ℚ) (l : List PresupRow)
    (h : countPresup c l = 0) :
    set_presupuesto c m l = l ++ [⟨c, m⟩] := by
  induction l with
  | nil => simp [set_presupuesto]
  | cons r rest ih =>
    rw [countPresup, List.filter_cons] at h
    by_cases hm : pyLower r.categoria = pyLower c
    · simp [hm] at h
    · simp only [hm, decide_False] at h
      rw [set_presupuesto, if_neg hm, ih (by simpa [countPresup] using h)]
      simp

theorem countPresup_set (c : String) (m : ℚ) (l : List PresupRow) :
    countPresup c (set_presupuesto c m l)
      = if countPresup c l = 0 then 1 else countPresup c l := by
  induction l with
  | nil => simp [set_presupuesto, countPresup]
  | cons r rest ih =>
    by_cases hm : pyLower r.categoria = pyLower c
    · simp [set_presupuesto, hm, countPresup, List.filter_cons, ih]
    · simp [set_presupuesto, hm, countPresup, List.filter_cons]
      simpa [countPresup] using ih

theorem mem_match_count_pos (c : String) (l : List PresupRow) (r : PresupRow)
    (hr : r ∈ l) (hm : pyLower r.categoria = pyLower c) :
    0 < countPresup c l := by
  rw [countPresup]
  have : r ∈ l.filter fun x => pyLower x.categoria = pyLower c :=
    List.mem_filter.mpr ⟨hr, by simp [hm]⟩
  exact List.length_pos.mpr (List.ne_nil_of_mem this)

theorem set_presupuesto_amount (c : String) (m : ℚ) (l : List PresupRow)
    (h : countPresup c l ≤ 1) :
    ∀ r ∈ set_presupuesto c m l, pyLower r.categoria = pyLower c → r.monto = m := by
  induction l with
  | nil =>
    intro r hr _
    simp [set_presupuesto] at hr
    subst hr
    rfl
  | cons r0 rest ih =>
    intro r hr hmr
    by_cases hm : pyLower r0.categoria = pyLower c
    · rw [set_presupuesto, if_pos hm] at hr
      rcases List.mem_cons.mp hr with hh | ht
      · subst hh; rfl
      · exfalso
        have hcnt : countPresup c (r0 :: rest) = 1 + countPresup c rest := by
          simp [countPresup, List.filter_cons, hm, Nat.add_comm]
        have := mem_match_count_pos c rest r ht hmr
        omega
    · rw [set_presupuesto, if_neg hm] at hr
      rcases List.mem_cons.mp hr with hh | ht
      · subst hh; exact absurd hmr hm
      · have hcnt : countPresup c (r0 :: rest) = countPresup c rest := by
          simp [countPresup, List.filter_cons, hm]
        exact ih (by omega) r ht hmr

theorem set_objetivo_idem (c : String) (m : ℚ) (l : List ObjRow) :
    set_objetivo c m (set_objetivo c m l) = set_objetivo c m l := by
  induction l with
  | nil => simp [set_objetivo]
  | cons r rest ih =>
    by_cases hm : pyLower r.nombre = pyLower c
    · simp [set_objetivo, hm]
    · simp [set_objetivo, hm, ih]

/-- C4: the budget and goal upserts are idempotent; an upsert on an
absent key appends exactly one row, one on a present key (first match of
the linear scan, case-insensitive) overwrites only that row's amount;
starting from at most one row per normalized key, two sequential upserts
leave exactly one matching row and it carries the upserted amount.
Setting the `"Comida"` budget to 1000 twice over a store holding only a
`"luz"` row yields exactly the rows `luz` and `Comida → 1000`. -/
theorem upsert_idempotent_unique (categoria nombre : String) (monto : ℚ)
    (lp : List PresupRow) (lo : List ObjRow) :
    set_presupuesto categoria monto (set_presupuesto categoria monto lp)
        = set_presupuesto categoria monto lp
    ∧ (countPresup categoria lp = 0 →
        set_presupuesto categoria monto lp = lp ++ [⟨categoria, monto⟩])
    ∧ (countPresup categoria lp ≤ 1 →
        countPresup categoria (set_presupuesto categoria monto
            (set_presupuesto categoria monto lp)) = 1
        ∧ ∀ r ∈ set_presupuesto categoria monto (set_presupuesto categoria monto lp),
            pyLower r.categoria = pyLower categoria → r.monto = monto)
    ∧ set_objetivo nombre monto (set_objetivo nombre monto lo)
        = set_objetivo nombre monto lo
    ∧ set_presupuesto "Comida" 1000 (set_presupuesto "Comida" 1000
        ([⟨"luz", 200⟩] : List PresupRow)) = [⟨"luz", 200⟩, ⟨"Comida", 1000⟩] := by
  refine ⟨set_presupuesto_idem categoria monto lp,
    set_presupuesto_append categoria monto lp, ?_,
    set_objetivo_idem nombre monto lo, ?_⟩
  · intro hle
    constructor
    · rw [set_presupuesto_idem, countPresup_set]
      split
      · rfl
      · omega
    · rw [set_presupuesto_idem]
      exact set_presupuesto_amount categoria monto lp hle
  · have hne : ¬ pyLower "luz" = pyLower "Comida" := by decide
    simp [set_presupuesto, hne]

/-- Witness for C4: upserting an absent key appends exactly one row. -/
theorem upsert_idempotent_unique_witness :
    set_presupuesto "Comida" 1000 ([⟨"luz", 200⟩] : List PresupRow)
      = [⟨"luz", 200⟩] ++ [⟨"Comida", 1000⟩] :=
  (upsert_idempotent_unique "Comida" "meta" 1000 [⟨"luz", 200⟩] []).2.1 (by decide)

/-- C5: movement argument parsing requires at least two tokens, failing
with the missing-arguments condition otherwise; with two or more, the
second token has any comma replaced by a dot and is then parsed as the
amount, failing with the distinct invalid-amount condition when not
numeric; the description is the remaining tokens rejoined with single
spaces, empty when there are none.  `"5,5"` parses to `5.5` and `"abc"`
is an invalid amount. -/
theorem parse_movimiento_args_contract (args : List String) :
    (args.length < 2 → parse_movimiento_args args = .error .missingArguments)
    ∧ (2 ≤ args.length →
        (pyFloat (pyReplaceChar ',' '.' (args.getD 1 "")) = none →
          parse_movimiento_args args = .error .invalidAmount)
        ∧ (∀ q : ℚ, pyFloat (pyReplaceChar ',' '.' (args.getD 1 "")) = some q →
            parse_movimiento_args args =
              .ok (args.headD "", q,
                if args.length > 2 then " ".intercalate (args.drop 2) else "")))
    ∧ parse_movimiento_args ["c", "5,5"] = .ok ("c", 11/2, "")
    ∧ parse_movimiento_args ["c", "abc"] = .error .invalidAmount := by
  refine ⟨?_, ?_, ?_, ?_⟩
  · intro h
    simp [parse_movimiento_args, h]
  · intro h2
    have h2' : ¬ args.length < 2 := by omega
    constructor
    · intro hn
      simp only [parse_movimiento_args, h2', if_false, hn]
    · intro q hq
      simp only [parse_movimiento_args, h2', if_false, hq]
  · have hv : pyFloat (pyReplaceChar ',' '.' ((["c", "5,5"] : List String).getD 1 ""))
        = some (11/2) := by
      rw [show pyReplaceChar ',' '.' ((["c", "5,5"] : List String).getD 1 "") = "5.5"
        from by decide]
      exact pyFloat_5_5
    simp only [parse_movimiento_args, hv]
    norm_num
  · have hv : pyFloat (pyReplaceChar ',' '.' ((["c", "abc"] : List String).getD 1 ""))
        = none := by
      rw [show pyReplaceChar ',' '.' ((["c", "abc"] : List String).getD 1 "") = "abc"
        from by decide]
      rw [pyFloat, show pyFloatParse "abc" = none from by decide]
    simp only [parse_movimiento_args, hv]
    norm_num

/-- Witness for C5 at a one-token argument list. -/
theorem parse_movimiento_args_contract_witness :
    parse_movimiento_args ["solo"] = .error .missingArguments :=
  (parse_movimiento_args_contract ["solo"]).1 (by decide)

/-- C6: the router sends nothing on empty or missing message text; a
non-empty text whose command token matches no handler gets the fixed
unrecognized-command reply; and any exception a dispatched handler raises
is caught at the router and turned into the fixed error reply instead of
propagating. -/
theorem router_fault_isolation
    (hexec : String → String → List String → Except PyExn (List String))
    (u : Update) :
    (pyStrip ((u.message.getD ⟨none, none, none⟩).text.getD "") = "" →
      handle_update hexec u = .ok [])
    ∧ (∀ (t : String) (cid : Int) (fn : Option UserObj),
        u.message = some ⟨some t, some ⟨some cid⟩, fn⟩ →
        pyStrip t ≠ "" →
        (commandOf (pyStrip t) ∉ knownCommands →
          handle_update hexec u = .ok [(cid, unrecognizedReply)])
        ∧ (∀ e : PyExn, commandOf (pyStrip t) ∈ knownCommands →
            hexec (commandOf (pyStrip t)) ((fn.getD ⟨none⟩).first_name.getD "Mica")
              (argsOf (pyStrip t)) = .error e →
            handle_update hexec u = .ok [(cid, routerErrorReply)])) := by
  obtain ⟨msg⟩ := u
  constructor
  · intro h
    simp only [handle_update]
    rw [if_pos h]
  · intro t cid fn hmsg hne
    subst hmsg
    constructor
    · intro hnotin
      simp only [handle_update, Option.getD_some]
      rw [if_neg hne, if_neg hnotin]
      rfl
    · intro e hin herr
      simp only [handle_update, Option.getD_some]
      rw [if_neg hne, if_pos hin, herr]

/-- Witness for C6: a raising handler is mapped to the error reply and an
unknown command to the unrecognized reply. -/
theorem router_fault_isolation_witness :
    handle_update (fun _ _ _ => .error .handlerError)
        ⟨some ⟨some "/saldo", some ⟨some 7⟩, none⟩⟩ = .ok [(7, routerErrorReply)]
    ∧ handle_update (fun _ _ _ => .error .handlerError)
        ⟨some ⟨some "/nope", some ⟨some 7⟩, none⟩⟩ = .ok [(7, unrecognizedReply)] :=
  ⟨((router_fault_isolation (fun _ _ _ => .error .handlerError)
      ⟨some ⟨some "/saldo", some ⟨some 7⟩, none⟩⟩).2 "/saldo" 7 none rfl
      (by decide)).2 .handlerError (by decide) rfl,
   ((router_fault_isolation (fun _ _ _ => .error .handlerError)
      ⟨some ⟨some "/nope", some ⟨some 7⟩, none⟩⟩).2 "/nope" 7 none rfl
      (by decide)).1 (by decide)⟩

/-- C10: the chat id is subscripted before the `try` block, so an update
with non-empty text but no `"chat"` object — or a chat object without an
`"id"` — makes `handle_update` itself raise a `KeyError` that propagates
to its caller. -/
theorem router_missing_chat_uncaught
    (hexec : String → String → List String → Except PyExn (List String))
    (msg : MessageObj) (h : pyStrip (msg.text.getD "") ≠ "") :
    (msg.chat = none → handle_update hexec ⟨some msg⟩ = .error .keyError)
    ∧ (∀ ch : ChatObj, msg.chat = some ch → ch.id = none →
        handle_update hexec ⟨some msg⟩ = .error .keyError) := by
  constructor
  · intro hc
    simp only [handle_update, Option.getD_some]
    rw [if_neg h, hc]
  · intro ch hc hid
    simp only [handle_update, Option.getD_some]
    rw [if_neg h, hc]
    dsimp only
    rw [hid]

/-- Witness for C10 at a `/start` message with no chat object. -/
theorem router_missing_chat_uncaught_witness :
    handle_update (fun _ _ _ => .ok []) ⟨some ⟨some "/start", none, none⟩⟩
      = .error .keyError :=
  (router_missing_chat_uncaught (fun _ _ _ => .ok [])
    ⟨some "/start", none, none⟩ (by decide)).1 rfl

end BotFinanzas
